import Mathlib

/-!
Verification of the uio adapter layer of a FreeBSD kernel module written in
Rust (file bsd-kernel/src/uio.rs).  The two adapters UioReader and UioWriter
wrap a raw pointer to a kernel transfer descriptor and delegate the actual
byte copy to the external kernel primitive (uiomove / uiomove_frombuf), which
decrements the uio_resid field of the descriptor by the number of bytes it
actually moved and advances uio_offset by the same number.

The shallow embedding models the observable descriptor state as two signed
integers (uio_offset at 64 bits, uio_resid as a signed machine word on a
64-bit target), the external primitive as a function from the requested
length (the c_int argument as passed) and the descriptor state to a status
code and a new state, and each adapter call as a pure function returning the
io result, the final descriptor state, and the number of primitive
invocations.  Rust `as` casts and release-mode integer arithmetic are
modelled by explicit twos-complement wrapping; a slice-indexing panic is
modelled by `Option.none`.
-/

/-- Largest value of the unsigned machine word (usize) on the 64-bit target. -/
def usizeMax : Nat := 2 ^ 64 - 1

/-- Largest value of a 32-bit signed integer, the bound enforced by a
fallible conversion of a nonnegative length into i32. -/
def i32Max : Nat := 2 ^ 31 - 1

/-- Twos-complement interpretation of casting an integer to usize (64-bit):
reduce modulo `2 ^ 64` into the interval from `0` up to `2 ^ 64`. -/
def wrapU64 (x : Int) : Nat := (x % (2 ^ 64 : Int)).toNat

/-- Twos-complement wrapping of an integer into the 64-bit signed range,
the release-mode semantics of signed machine-word arithmetic. -/
def wrapI64 (x : Int) : Int := (x + 2 ^ 63) % 2 ^ 64 - 2 ^ 63

/-- Twos-complement wrapping of an integer into the 32-bit signed range,
the semantics of an `as i32` cast. -/
def wrapI32 (x : Int) : Int := (x + 2 ^ 31) % 2 ^ 32 - 2 ^ 31

/-- Observable fields of the kernel transfer descriptor: uio_offset (a 64-bit
signed offset) and uio_resid (a signed machine-word count of bytes left). -/
structure Uio where
  uio_offset : Int
  uio_resid : Int
deriving DecidableEq, Repr

/-- Error kinds of the io module of bsd-kernel used by the uio adapters.
Modelled from the spec: the io module itself is outside the sources at hand;
spec section 7 gives the taxonomy InvalidInput and Other. -/
inductive ErrorKind where
  | invalidInput
  | other
deriving DecidableEq, Repr

/-- An io error: a kind together with a description string.  Modelled from
the spec: section 7 says an error carries the primitive raw status code or a
description. -/
structure IoError where
  kind : ErrorKind
  msg : String
deriving DecidableEq, Repr

/-- The external transfer primitive (uiomove / uiomove_frombuf): given the
requested length (the c_int argument as passed) and the descriptor state, it
returns a status code and the new descriptor state.  Its documented contract
is stated by the predicates PrimOk, PrimMono and PrimExact below. -/
def Prim : Type := Int → Uio → Int × Uio

deriving instance DecidableEq for Except

/-- Outcome of one read call of UioReader: the io result, the final
descriptor state, and how many times the primitive was invoked. -/
structure ReadOutcome where
  result : Except IoError Nat
  uio : Uio
  invocations : Nat
deriving DecidableEq, Repr

/-- Outcome of one write call of UioWriter, same fields as ReadOutcome. -/
structure WriteOutcome where
  result : Except IoError Nat
  uio : Uio
  invocations : Nat
deriving DecidableEq, Repr

/-- Tail of the read call of UioReader after the uiomove_frombuf call `r`:
on status 0 the amount is the pre/post difference of uio_resid converted to
usize, otherwise an error of kind Other with a fixed message.  The signed
machine-word subtraction wraps (release mode) and the conversion to usize
fails exactly on negative values. -/
def readFinish (origResid : Int) (r : Int × Uio) : ReadOutcome :=
  if r.1 = 0 then
    if wrapI64 (origResid - r.2.uio_resid) < 0 then
      ⟨Except.error ⟨ErrorKind.other, "result out of range"⟩, r.2, 1⟩
    else
      ⟨Except.ok (wrapI64 (origResid - r.2.uio_resid)).toNat, r.2, 1⟩
  else
    ⟨Except.error ⟨ErrorKind.other, "UioReader::read uiomove failed."⟩, r.2, 1⟩

/-- Embedding of the read call of UioReader (uio.rs lines 61-96), on a buffer
of length `bufLen`: convert uio_offset to usize (InvalidInput if out of
range), compute the checked subtraction of the offset from the buffer length
(InvalidInput on underflow), convert that length to i32 (InvalidInput above
the 32-bit signed bound), then invoke uiomove_frombuf once and derive the
amount from the pre/post uio_resid difference. -/
def UioReader.read (prim : Prim) (bufLen : Nat) (u : Uio) : ReadOutcome :=
  if u.uio_offset < 0 ∨ (usizeMax : Int) < u.uio_offset then
    ⟨Except.error ⟨ErrorKind.invalidInput, "uio.uio_offset out of usize range"⟩, u, 0⟩
  else if bufLen < u.uio_offset.toNat then
    ⟨Except.error ⟨ErrorKind.invalidInput,
      "buf.len() - uio.uio_offset out of usize range"⟩, u, 0⟩
  else if i32Max < bufLen - u.uio_offset.toNat then
    ⟨Except.error ⟨ErrorKind.invalidInput,
      "buf.len() - uio.uio_offset out of i32 range"⟩, u, 0⟩
  else
    readFinish u.uio_resid (prim ((bufLen - u.uio_offset.toNat : Nat) : Int) u)

/-- Residual accessor of UioReader: the uio_resid field. -/
def UioReader.residual (u : Uio) : Int := u.uio_resid

/-- The amount computed by the write call of UioWriter before any primitive
call (uio.rs lines 142-150): the offset and residual are cast to usize with
`as`, the buffer length minus the offset is a release-mode wrapping
subtraction (followed by the redundant match sending 0 to 0), and the amount
is the minimum of the two candidates. -/
def writeAmount (bufLen : Nat) (u : Uio) : Nat :=
  min
    (if 0 < wrapU64 ((bufLen : Int) - (wrapU64 u.uio_offset : Int)) then
        wrapU64 ((bufLen : Int) - (wrapU64 u.uio_offset : Int))
      else 0)
    (wrapU64 u.uio_resid)

/-- Tail of the write call of UioWriter after the uiomove call `r`: on status
0 the precomputed amount is returned, otherwise an error of kind Other whose
message carries the status code of the primitive. -/
def writeFinish (amount : Nat) (r : Int × Uio) : WriteOutcome :=
  if r.1 = 0 then
    ⟨Except.ok amount, r.2, 1⟩
  else
    ⟨Except.error ⟨ErrorKind.other,
      "uiomove failed with return code " ++ toString r.1⟩, r.2, 1⟩

/-- Embedding of the write call of UioWriter (uio.rs lines 131-171), on a
buffer of length `bufLen`: compute writeAmount; if it is 0, return the offset
as the ok value without invoking the primitive (the source comments that this
lets write_all know all bytes were already consumed); otherwise slice the
buffer from the offset (a panic, modelled as `none`, when the offset exceeds
the buffer length) and invoke uiomove once with the amount cast `as i32`. -/
def UioWriter.write (prim : Prim) (bufLen : Nat) (u : Uio) : Option WriteOutcome :=
  if writeAmount bufLen u = 0 then
    some ⟨Except.ok (wrapU64 u.uio_offset), u, 0⟩
  else if bufLen < wrapU64 u.uio_offset then
    none
  else
    some (writeFinish (writeAmount bufLen u)
      (prim (wrapI32 (writeAmount bufLen u)) u))

/-- Embedding of the flush call of UioWriter (uio.rs lines 173-176): it
returns ok and touches nothing. -/
def UioWriter.flush (u : Uio) : Except IoError Unit × Uio :=
  (Except.ok (), u)

/-- Residual accessor of UioWriter: the uio_resid field. -/
def UioWriter.residual (u : Uio) : Int := u.uio_resid

/-- Embedding of NonNull pointer creation: `none` exactly on the null pointer
(address 0). -/
def nonNullNew (p : Nat) : Option Nat :=
  if p = 0 then none else some p

/-- The UioReader struct: a non-null pointer to the descriptor. -/
structure UioReader where
  uio : Nat
deriving DecidableEq, Repr

/-- Embedding of the constructor of UioReader (uio.rs lines 46-50): NonNull
creation followed by unwrap; the unwrap panic is modelled as `none`. -/
def UioReader.new (p : Nat) : Option UioReader :=
  (nonNullNew p).map UioReader.mk

/-- The UioWriter struct: a non-null pointer to the descriptor. -/
structure UioWriter where
  uio : Nat
deriving DecidableEq, Repr

/-- Embedding of the constructor of UioWriter (uio.rs lines 118-122). -/
def UioWriter.new (p : Nat) : Option UioWriter :=
  (nonNullNew p).map UioWriter.mk

/-- The documented contract of the transfer primitive (spec section 6): for a
nonnegative requested length it moves some number of bytes bounded by that
length, decrements uio_resid by the number moved and advances uio_offset by
the same number. -/
def PrimOk (prim : Prim) : Prop :=
  ∀ (n : Int) (u : Uio), 0 ≤ n →
    ∃ moved : Nat, (moved : Int) ≤ n ∧
      (prim n u).2.uio_resid = u.uio_resid - moved ∧
      (prim n u).2.uio_offset = u.uio_offset + moved

/-- A primitive that only ever decrements uio_resid, on every input
(including lengths outside the documented c_int domain). -/
def PrimMono (prim : Prim) : Prop :=
  ∀ (n : Int) (u : Uio), (prim n u).2.uio_resid ≤ u.uio_resid

/-- A primitive that transfers exactly the requested length whenever that
length is nonnegative and within uio_resid. -/
def PrimExact (prim : Prim) : Prop :=
  ∀ (n : Int) (u : Uio), 0 ≤ n → n ≤ u.uio_resid →
    (prim n u).2.uio_resid = u.uio_resid - n ∧
    (prim n u).2.uio_offset = u.uio_offset + n

/-- A contract-abiding primitive that reports success while moving zero
bytes (legal: the contract says it copies up to the requested length). -/
def primStall : Prim := fun _ u => (0, u)

/-- A primitive that fails with the given status code and moves nothing. -/
def primFail (code : Int) : Prim := fun _ u => (code, u)

/-- A primitive that succeeds and transfers exactly the requested length. -/
def primExact : Prim := fun n u => (0, ⟨u.uio_offset + n, u.uio_resid - n⟩)

/-- The kind of the error in a result, if any. -/
def resultKind : Except IoError Nat → Option ErrorKind
  | Except.error e => some e.kind
  | Except.ok _ => none

/-- One adapter operation, identified by which adapter call it is and the
length of the caller-supplied buffer where one is taken. -/
inductive AdapterOp where
  | read (bufLen : Nat)
  | write (bufLen : Nat)
  | flush
  | residual
deriving DecidableEq, Repr

/-- The descriptor state after one adapter operation (`none` on a panic). -/
def stepOp (primR primW : Prim) (u : Uio) : AdapterOp → Option Uio
  | AdapterOp.read n => some (UioReader.read primR n u).uio
  | AdapterOp.write n => (UioWriter.write primW n u).map WriteOutcome.uio
  | AdapterOp.flush => some (UioWriter.flush u).2
  | AdapterOp.residual => some u

/-- The descriptor state after a sequence of adapter operations. -/
def runOps (primR primW : Prim) : Uio → List AdapterOp → Option Uio
  | u, [] => some u
  | u, op :: ops =>
    match stepOp primR primW u op with
    | none => none
    | some u' => runOps primR primW u' ops

/-! Helper lemmas about the wrapping casts and the sample primitives. -/

theorem wrapU64_eq_toNat (x : Int) (h0 : 0 ≤ x) (h1 : x < 2 ^ 64) :
    wrapU64 x = x.toNat := by
  unfold wrapU64
  rw [Int.emod_eq_of_lt h0 h1]

theorem wrapU64_natCast (n : Nat) (h : n < 2 ^ 64) : wrapU64 (n : Int) = n := by
  rw [wrapU64_eq_toNat _ (Int.natCast_nonneg n) (by exact_mod_cast h)]
  exact Int.toNat_natCast n

theorem wrapI64_eq_self (x : Int) (h0 : -(2 ^ 63) ≤ x) (h1 : x < 2 ^ 63) :
    wrapI64 x = x := by
  unfold wrapI64
  rw [Int.emod_eq_of_lt (by omega) (by omega)]
  omega

theorem wrapI32_eq_self (x : Int) (h0 : -(2 ^ 31) ≤ x) (h1 : x < 2 ^ 31) :
    wrapI32 x = x := by
  unfold wrapI32
  rw [Int.emod_eq_of_lt (by omega) (by omega)]
  omega

theorem primStall_primOk : PrimOk primStall := by
  intro n u hn
  exact ⟨0, by simpa using hn, by simp [primStall], by simp [primStall]⟩

theorem primStall_primMono : PrimMono primStall := by
  intro n u
  exact le_refl _

theorem primExact_primExact : PrimExact primExact := by
  intro n u _ _
  exact ⟨rfl, rfl⟩

/-! Helper lemmas characterizing the branches of the adapter calls. -/

/-- Either the read call rejects before the primitive (an InvalidInput error
with the descriptor untouched and zero invocations), or all three domain
checks pass and it finishes through the primitive call. -/
theorem read_cases (prim : Prim) (bufLen : Nat) (u : Uio) :
    (∃ msg, UioReader.read prim bufLen u =
      ⟨Except.error ⟨ErrorKind.invalidInput, msg⟩, u, 0⟩) ∨
    (0 ≤ u.uio_offset ∧ u.uio_offset.toNat ≤ bufLen ∧
      bufLen - u.uio_offset.toNat ≤ i32Max ∧
      UioReader.read prim bufLen u =
        readFinish u.uio_resid
          (prim ((bufLen - u.uio_offset.toNat : Nat) : Int) u)) := by
  unfold UioReader.read
  split_ifs with c1 c2 c3
  · exact Or.inl ⟨_, rfl⟩
  · exact Or.inl ⟨_, rfl⟩
  · exact Or.inl ⟨_, rfl⟩
  · push_neg at c1
    exact Or.inr ⟨c1.1, by omega, by omega, rfl⟩

/-- When all three domain checks pass, the read call is the finish of the
single primitive invocation. -/
theorem read_checks_pass (prim : Prim) (bufLen : Nat) (u : Uio)
    (h0 : 0 ≤ u.uio_offset) (h1 : u.uio_offset ≤ (usizeMax : Int))
    (h2 : u.uio_offset.toNat ≤ bufLen)
    (h3 : bufLen - u.uio_offset.toNat ≤ i32Max) :
    UioReader.read prim bufLen u =
      readFinish u.uio_resid
        (prim ((bufLen - u.uio_offset.toNat : Nat) : Int) u) := by
  unfold UioReader.read
  rw [if_neg (by omega), if_neg (by omega), if_neg (by omega)]

/-- When the offset is out of the usize domain or beyond the buffer length,
the read call returns InvalidInput with the descriptor untouched and the
primitive not invoked. -/
theorem read_reject_of_offset (prim : Prim) (bufLen : Nat) (u : Uio)
    (h : u.uio_offset < 0 ∨ (usizeMax : Int) < u.uio_offset ∨
      (0 ≤ u.uio_offset ∧ bufLen < u.uio_offset.toNat)) :
    resultKind (UioReader.read prim bufLen u).result = some ErrorKind.invalidInput ∧
    (UioReader.read prim bufLen u).uio = u ∧
    (UioReader.read prim bufLen u).invocations = 0 := by
  unfold UioReader.read
  rcases h with h | h | ⟨h0, h2⟩
  · rw [if_pos (Or.inl h)]
    exact ⟨rfl, rfl, rfl⟩
  · rw [if_pos (Or.inr h)]
    exact ⟨rfl, rfl, rfl⟩
  · by_cases hm : (usizeMax : Int) < u.uio_offset
    · rw [if_pos (Or.inr hm)]
      exact ⟨rfl, rfl, rfl⟩
    · rw [if_neg (by omega), if_pos h2]
      exact ⟨rfl, rfl, rfl⟩

/-- The precomputed write amount, in terms of plain natural subtraction, when
the descriptor fields are in range and the offset is within the buffer. -/
theorem writeAmount_eq (bufLen : Nat) (u : Uio)
    (h0 : 0 ≤ u.uio_offset) (h1 : u.uio_offset < 2 ^ 64)
    (h2 : 0 ≤ u.uio_resid) (h3 : u.uio_resid < 2 ^ 64)
    (h4 : u.uio_offset.toNat ≤ bufLen) (h5 : bufLen < 2 ^ 64) :
    writeAmount bufLen u = min (bufLen - u.uio_offset.toNat) u.uio_resid.toNat := by
  unfold writeAmount
  rw [wrapU64_eq_toNat _ h0 h1, wrapU64_eq_toNat _ h2 h3]
  have hcast : (bufLen : Int) - u.uio_offset.toNat =
      ((bufLen - u.uio_offset.toNat : Nat) : Int) := by
    omega
  rw [hcast, wrapU64_natCast _ (by omega)]
  rcases Nat.eq_zero_or_pos (bufLen - u.uio_offset.toNat) with hz | hp
  · rw [hz]
    simp
  · rw [if_pos hp]

/-- When the precomputed amount is nonzero and the offset is within the
buffer, the write call is the finish of the single primitive invocation. -/
theorem write_invoke (prim : Prim) (bufLen : Nat) (u : Uio)
    (hA : writeAmount bufLen u ≠ 0) (hB : wrapU64 u.uio_offset ≤ bufLen) :
    UioWriter.write prim bufLen u =
      some (writeFinish (writeAmount bufLen u)
        (prim (wrapI32 (writeAmount bufLen u)) u)) := by
  unfold UioWriter.write
  rw [if_neg hA, if_neg (by omega)]

/-! Claim theorems. -/

/-- Claim C6: adapter construction panics if and only if the supplied
descriptor pointer is null; for every non-null pointer it succeeds and yields
an adapter wrapping that descriptor, so the panic branch is unreachable under
the non-null precondition. -/
theorem uio_new_null_panic_iff :
    (∀ p : Nat, (UioReader.new p = none ↔ p = 0) ∧
      (UioWriter.new p = none ↔ p = 0)) ∧
    (∀ p : Nat, p ≠ 0 →
      UioReader.new p = some ⟨p⟩ ∧ UioWriter.new p = some ⟨p⟩) := by
  constructor
  · intro p
    by_cases hp : p = 0 <;>
      simp [UioReader.new, UioWriter.new, nonNullNew, hp]
  · intro p hp
    simp [UioReader.new, UioWriter.new, nonNullNew, hp]

/-- Witness for C6 at the concrete non-null pointer 42. -/
theorem uio_new_null_panic_iff_witness :
    UioReader.new 42 = some ⟨42⟩ ∧ UioWriter.new 42 = some ⟨42⟩ :=
  uio_new_null_panic_iff.2 42 (by decide)

/-- Claim C7: flush, any number of times, in any descriptor state, returns
success and leaves the descriptor unchanged. -/
theorem uio_flush_idempotent_noop : ∀ (u : Uio) (n : Nat),
    UioWriter.flush u = (Except.ok (), u) ∧
    (fun s => (UioWriter.flush s).2)^[n] u = u := by
  intro u n
  exact ⟨rfl, Function.iterate_fixed rfl n⟩

/-- Claim C10: a read call whose descriptor offset is negative, above the
unsigned machine-word range, or greater than the buffer length returns
InvalidInput, never invokes the primitive, and leaves the descriptor
unchanged. -/
theorem uio_read_offset_domain_reject (prim : Prim) (bufLen : Nat) (u : Uio)
    (h : u.uio_offset < 0 ∨ (usizeMax : Int) < u.uio_offset ∨
      (0 ≤ u.uio_offset ∧ bufLen < u.uio_offset.toNat)) :
    resultKind (UioReader.read prim bufLen u).result = some ErrorKind.invalidInput ∧
    (UioReader.read prim bufLen u).uio = u ∧
    (UioReader.read prim bufLen u).invocations = 0 :=
  read_reject_of_offset prim bufLen u h

/-- Witness for C10 at a concrete negative offset. -/
theorem uio_read_offset_domain_reject_witness :
    resultKind (UioReader.read primStall 3 ⟨-1, 7⟩).result = some ErrorKind.invalidInput ∧
    (UioReader.read primStall 3 ⟨-1, 7⟩).uio = ⟨-1, 7⟩ ∧
    (UioReader.read primStall 3 ⟨-1, 7⟩).invocations = 0 :=
  uio_read_offset_domain_reject primStall 3 ⟨-1, 7⟩ (Or.inl (by decide))

/-- Claim C5 (amended): a read call with an empty buffer returns 0 and leaves
uio_resid and uio_offset unchanged only when the descriptor offset is 0 (and
the zero-length primitive invocation, which does happen, succeeds); for every
nonzero offset the call instead returns InvalidInput without invoking the
primitive, the descriptor still unchanged. -/
theorem uio_read_empty_buffer :
    (∀ (prim : Prim) (u : Uio), u.uio_offset ≠ 0 →
      resultKind (UioReader.read prim 0 u).result = some ErrorKind.invalidInput ∧
      (UioReader.read prim 0 u).uio = u ∧
      (UioReader.read prim 0 u).invocations = 0) ∧
    (∀ (prim : Prim) (u : Uio), PrimOk prim → u.uio_offset = 0 →
      (prim 0 u).1 = 0 →
      (UioReader.read prim 0 u).result = Except.ok 0 ∧
      (UioReader.read prim 0 u).uio.uio_resid = u.uio_resid ∧
      (UioReader.read prim 0 u).uio.uio_offset = u.uio_offset) := by
  constructor
  · intro prim u ho
    apply read_reject_of_offset
    have hm : (usizeMax : Int) = 2 ^ 64 - 1 := by norm_num [usizeMax]
    rw [hm]
    omega
  · intro prim u hok ho hret
    have hm : (usizeMax : Int) = 2 ^ 64 - 1 := by norm_num [usizeMax]
    rw [read_checks_pass prim 0 u (by omega) (by omega) (by omega) (by omega)]
    have harg : ((0 - u.uio_offset.toNat : Nat) : Int) = 0 := by omega
    rw [harg]
    obtain ⟨moved, hm1, hm2, hm3⟩ := hok 0 u le_rfl
    have hmz : moved = 0 := by omega
    subst hmz
    unfold readFinish
    rw [if_pos hret]
    have hdiff : u.uio_resid - (prim 0 u).2.uio_resid = 0 := by omega
    rw [hdiff]
    have hw : wrapI64 0 = 0 := by decide
    rw [hw, if_neg (by decide)]
    refine ⟨rfl, ?_, ?_⟩
    · show (prim 0 u).2.uio_resid = u.uio_resid
      omega
    · show (prim 0 u).2.uio_offset = u.uio_offset
      omega

/-- Witness for C5 at offset 0 with the stalling primitive. -/
theorem uio_read_empty_buffer_witness :
    (UioReader.read primStall 0 ⟨0, 9⟩).result = Except.ok 0 ∧
    (UioReader.read primStall 0 ⟨0, 9⟩).uio.uio_resid = (9 : Int) ∧
    (UioReader.read primStall 0 ⟨0, 9⟩).uio.uio_offset = (0 : Int) :=
  uio_read_empty_buffer.2 primStall ⟨0, 9⟩ primStall_primOk rfl rfl

/-- Counterexample for C5 as stated: with an empty buffer but descriptor
offset 1 the read call returns InvalidInput, not amount 0. -/
theorem uio_read_empty_buffer_cex :
    (UioReader.read primStall 0 ⟨1, 7⟩).result ≠ Except.ok 0 ∧
    (UioReader.read primStall 0 ⟨1, 7⟩).result =
      Except.error ⟨ErrorKind.invalidInput,
        "buf.len() - uio.uio_offset out of usize range"⟩ := by
  constructor
  · decide
  · rfl

/-- Claim C1 (amended): a write call whose precomputed amount is zero --
in particular when uio_resid is already 0 (with a nonnegative in-range
offset), or when the buffer is empty and the offset is 0 -- returns
Ok(offset-as-usize) without error, never invokes the primitive, and leaves
the descriptor unchanged; the returned amount is 0 exactly when the
descriptor offset is 0, not in general. -/
theorem uio_write_zero_amount_returns_offset (prim : Prim) (bufLen : Nat) (u : Uio)
    (h0 : 0 ≤ u.uio_offset) (h1 : u.uio_offset < 2 ^ 63)
    (h : u.uio_resid = 0 ∨ (bufLen = 0 ∧ u.uio_offset = 0)) :
    UioWriter.write prim bufLen u =
      some ⟨Except.ok u.uio_offset.toNat, u, 0⟩ := by
  have hoff : wrapU64 u.uio_offset = u.uio_offset.toNat :=
    wrapU64_eq_toNat _ h0 (by omega)
  have hz : writeAmount bufLen u = 0 := by
    rcases h with h | ⟨hb, ho⟩
    · unfold writeAmount
      rw [h]
      simp [wrapU64]
    · unfold writeAmount
      rw [hb, ho]
      simp [wrapU64]
  unfold UioWriter.write
  rw [if_pos hz, hoff]

/-- Witness for C1 at an exhausted descriptor with offset 5. -/
theorem uio_write_zero_amount_returns_offset_witness :
    UioWriter.write primStall 10 ⟨5, 0⟩ = some ⟨Except.ok 5, ⟨5, 0⟩, 0⟩ :=
  uio_write_zero_amount_returns_offset primStall 10 ⟨5, 0⟩ (by decide) (by decide)
    (Or.inl rfl)

/-- Counterexample for C1 as stated: with uio_resid 0 but offset 5 the write
call returns Ok 5, not amount 0, even under a contract-abiding primitive. -/
theorem uio_write_exhausted_cex :
    PrimOk primStall ∧
    UioWriter.write primStall 10 ⟨5, 0⟩ = some ⟨Except.ok 5, ⟨5, 0⟩, 0⟩ ∧
    (5 : Nat) ≠ 0 :=
  ⟨primStall_primOk, by decide, by decide⟩

/-- Claim C2 (amended): for every successful read call under the documented
primitive contract, the returned amount equals uio_resid before minus
uio_resid after, and the residual does not increase.  For write calls the
equality holds only for calls that invoke the primitive and only when the
primitive transfers exactly the requested amount: the writer returns a
precomputed amount, not the pre/post difference. -/
theorem uio_accounting_equality :
    (∀ (prim : Prim) (bufLen : Nat) (u : Uio), PrimOk prim →
      ∀ a : Nat, (UioReader.read prim bufLen u).result = Except.ok a →
        (a : Int) = u.uio_resid - (UioReader.read prim bufLen u).uio.uio_resid ∧
        (UioReader.read prim bufLen u).uio.uio_resid ≤ u.uio_resid) ∧
    (∀ (prim : Prim) (bufLen : Nat) (u : Uio), PrimExact prim →
      0 ≤ u.uio_offset → u.uio_offset < 2 ^ 63 →
      0 ≤ u.uio_resid → u.uio_resid < 2 ^ 63 →
      bufLen ≤ i32Max →
      ∀ (out : WriteOutcome) (a : Nat),
        UioWriter.write prim bufLen u = some out →
        out.result = Except.ok a → 0 < out.invocations →
        (a : Int) = u.uio_resid - out.uio.uio_resid ∧
        out.uio.uio_resid ≤ u.uio_resid) := by
  constructor
  · intro prim bufLen u hok a hres
    rcases read_cases prim bufLen u with ⟨msg, heq⟩ | ⟨h0, h2, h3, heq⟩
    · rw [heq] at hres
      simp at hres
    · have hi : i32Max = 2 ^ 31 - 1 := rfl
      obtain ⟨moved, hm1, hm2, hm3⟩ :=
        hok ((bufLen - u.uio_offset.toNat : Nat) : Int) u (Int.natCast_nonneg _)
      have hd : u.uio_resid -
          (prim ((bufLen - u.uio_offset.toNat : Nat) : Int) u).2.uio_resid
          = (moved : Int) := by omega
      have hwrap : wrapI64 (moved : Int) = (moved : Int) :=
        wrapI64_eq_self _ (by omega) (by omega)
      rw [heq] at hres ⊢
      unfold readFinish at hres ⊢
      rw [hd, hwrap] at hres ⊢
      by_cases d1 : (prim ((bufLen - u.uio_offset.toNat : Nat) : Int) u).1 = 0
      · rw [if_pos d1] at hres ⊢
        rw [if_neg (show ¬ (moved : Int) < 0 by omega)] at hres ⊢
        simp at hres
        constructor
        · show (a : Int) = u.uio_resid -
            (prim ((bufLen - u.uio_offset.toNat : Nat) : Int) u).2.uio_resid
          omega
        · show (prim ((bufLen - u.uio_offset.toNat : Nat) : Int) u).2.uio_resid
            ≤ u.uio_resid
          omega
      · rw [if_neg d1] at hres
        simp at hres
  · intro prim bufLen u hex h0 h1 h2 h3 hbl out a hsome hres hinv
    have hi : i32Max = 2 ^ 31 - 1 := rfl
    have hoff : wrapU64 u.uio_offset = u.uio_offset.toNat :=
      wrapU64_eq_toNat _ h0 (by omega)
    unfold UioWriter.write at hsome
    by_cases hA : writeAmount bufLen u = 0
    · rw [if_pos hA, Option.some_inj] at hsome
      subst hsome
      simp at hinv
    · rw [if_neg hA] at hsome
      by_cases hB : bufLen < wrapU64 u.uio_offset
      · rw [if_pos hB] at hsome
        exact Option.noConfusion hsome
      · rw [if_neg hB, Option.some_inj] at hsome
        subst hsome
        rw [hoff] at hB
        push_neg at hB
        have hAe := writeAmount_eq bufLen u h0 (by omega) h2 (by omega) hB (by omega)
        have hm32 : writeAmount bufLen u ≤ i32Max := by
          rw [hAe]
          omega
        have hw32 : wrapI32 ((writeAmount bufLen u : Nat) : Int) =
            (writeAmount bufLen u : Int) :=
          wrapI32_eq_self _ (Int.natCast_nonneg _) (by omega)
        rw [hw32] at hres ⊢
        obtain ⟨hr1, hr2⟩ := hex ((writeAmount bufLen u : Nat) : Int) u
          (Int.natCast_nonneg _) (by rw [hAe]; omega)
        unfold writeFinish at hres ⊢
        by_cases hret : (prim ((writeAmount bufLen u : Nat) : Int) u).1 = 0
        · rw [if_pos hret] at hres ⊢
          simp at hres
          constructor
          · show (a : Int) = u.uio_resid -
              (prim ((writeAmount bufLen u : Nat) : Int) u).2.uio_resid
            rw [hr1]
            omega
          · show (prim ((writeAmount bufLen u : Nat) : Int) u).2.uio_resid
              ≤ u.uio_resid
            rw [hr1]
            omega
        · rw [if_neg hret] at hres
          simp at hres

/-- Witness for C2 (the write conjunct) at a 16-byte buffer against a
descriptor with 10 bytes remaining and an exactly-transferring primitive. -/
theorem uio_accounting_equality_witness :
    (10 : Int) = 10 - (0 : Int) ∧ (0 : Int) ≤ 10 := by
  exact uio_accounting_equality.2 primExact 16 ⟨0, 10⟩ primExact_primExact
    (by decide) (by decide) (by decide) (by decide) (by decide)
    ⟨Except.ok 10, ⟨10, 0⟩, 1⟩ 10 (by decide) rfl (by decide)

/-- Counterexample for C2 as stated: a contract-abiding primitive that
reports success while moving nothing makes the write call return amount 10
although the pre/post difference of uio_resid is 0. -/
theorem uio_write_accounting_cex :
    PrimOk primStall ∧
    UioWriter.write primStall 16 ⟨0, 10⟩ = some ⟨Except.ok 10, ⟨0, 10⟩, 1⟩ ∧
    ¬ ((10 : Int) = (10 : Int) - (10 : Int)) :=
  ⟨primStall_primOk, by decide, by decide⟩

/-- Claim C4 (amended): when the primitive returns a non-zero status, both
adapters return an error of kind Other; the error of the writer carries the
status code in its message, while the error of the reader is a fixed
description independent of the status. -/
theorem uio_error_propagation :
    (∀ (prim : Prim) (bufLen : Nat) (u : Uio),
      writeAmount bufLen u ≠ 0 → wrapU64 u.uio_offset ≤ bufLen →
      (prim (wrapI32 (writeAmount bufLen u)) u).1 ≠ 0 →
      UioWriter.write prim bufLen u =
        some ⟨Except.error ⟨ErrorKind.other,
          "uiomove failed with return code " ++
            toString (prim (wrapI32 (writeAmount bufLen u)) u).1⟩,
          (prim (wrapI32 (writeAmount bufLen u)) u).2, 1⟩) ∧
    (∀ (prim : Prim) (bufLen : Nat) (u : Uio),
      0 ≤ u.uio_offset → u.uio_offset ≤ (usizeMax : Int) →
      u.uio_offset.toNat ≤ bufLen → bufLen - u.uio_offset.toNat ≤ i32Max →
      (prim ((bufLen - u.uio_offset.toNat : Nat) : Int) u).1 ≠ 0 →
      UioReader.read prim bufLen u =
        ⟨Except.error ⟨ErrorKind.other, "UioReader::read uiomove failed."⟩,
          (prim ((bufLen - u.uio_offset.toNat : Nat) : Int) u).2, 1⟩) := by
  constructor
  · intro prim bufLen u hA hB hret
    rw [write_invoke prim bufLen u hA hB]
    unfold writeFinish
    rw [if_neg hret]
  · intro prim bufLen u h0 h1 h2 h3 hret
    rw [read_checks_pass prim bufLen u h0 h1 h2 h3]
    unfold readFinish
    rw [if_neg hret]

/-- Witness for C4 (the write conjunct) with a primitive failing with
status 9. -/
theorem uio_error_propagation_witness :
    UioWriter.write (primFail 9) 16 ⟨0, 10⟩ =
      some ⟨Except.error ⟨ErrorKind.other,
        "uiomove failed with return code 9"⟩, ⟨0, 10⟩, 1⟩ := by
  have h := uio_error_propagation.1 (primFail 9) 16 ⟨0, 10⟩ (by decide)
    (by decide) (by decide)
  rw [h]
  decide

/-- Counterexample for C4 as stated: the reader maps two different non-zero
primitive statuses (7 and 8) to the very same error value, so its error
cannot carry the status code it propagates. -/
theorem uio_reader_error_payload_cex :
    UioReader.read (primFail 7) 4 ⟨0, 5⟩ = UioReader.read (primFail 8) 4 ⟨0, 5⟩ ∧
    (UioReader.read (primFail 7) 4 ⟨0, 5⟩).result =
      Except.error ⟨ErrorKind.other, "UioReader::read uiomove failed."⟩ := by
  constructor
  · decide
  · rfl

/-- Claim C9: a successful write call that invokes the primitive returns the
amount min(buffer length - descriptor offset, uio_resid before the call),
computed before the invocation and independent of the descriptor state the
primitive leaves behind. -/
theorem uio_write_amount_precomputed (prim : Prim) (bufLen : Nat) (u : Uio)
    (h0 : 0 ≤ u.uio_offset) (h1 : u.uio_offset < 2 ^ 63)
    (h2 : 0 ≤ u.uio_resid) (h3 : u.uio_resid < 2 ^ 63)
    (h4 : u.uio_offset.toNat ≤ bufLen) (h5 : bufLen < 2 ^ 64)
    (hpos : 0 < min (bufLen - u.uio_offset.toNat) u.uio_resid.toNat)
    (hret : (prim (wrapI32 ((min (bufLen - u.uio_offset.toNat)
      u.uio_resid.toNat : Nat) : Int)) u).1 = 0) :
    UioWriter.write prim bufLen u =
      some ⟨Except.ok (min (bufLen - u.uio_offset.toNat) u.uio_resid.toNat),
        (prim (wrapI32 ((min (bufLen - u.uio_offset.toNat)
          u.uio_resid.toNat : Nat) : Int)) u).2, 1⟩ := by
  have hAe := writeAmount_eq bufLen u h0 (by omega) h2 (by omega) h4 h5
  rw [write_invoke prim bufLen u (by omega)
    (by rw [wrapU64_eq_toNat _ h0 (by omega)]; exact h4), hAe]
  unfold writeFinish
  rw [if_pos hret]

/-- Witness for C9 at a 16-byte buffer against 10 bytes remaining. -/
theorem uio_write_amount_precomputed_witness :
    UioWriter.write primStall 16 ⟨0, 10⟩ = some ⟨Except.ok 10, ⟨0, 10⟩, 1⟩ := by
  have h := uio_write_amount_precomputed primStall 16 ⟨0, 10⟩ (by decide)
    (by decide) (by decide) (by decide) (by decide) (by decide) (by decide)
    (by decide)
  rw [h]
  decide

/-- Claim C3 (code bug, evaluated at the failing input): with a buffer of
length 2 ^ 31 the reader rejects with InvalidInput before any invocation, but
the writer performs no size-domain check at all -- it invokes the primitive
once (the length argument truncated by the `as i32` cast to the negative
value -(2 ^ 31)) and returns Ok instead of InvalidInput. -/
theorem uio_write_size_domain_unchecked :
    UioReader.read primStall (2 ^ 31) ⟨0, 2 ^ 31⟩ =
      ⟨Except.error ⟨ErrorKind.invalidInput,
        "buf.len() - uio.uio_offset out of i32 range"⟩, ⟨0, 2 ^ 31⟩, 0⟩ ∧
    UioWriter.write primStall (2 ^ 31) ⟨0, 2 ^ 31⟩ =
      some ⟨Except.ok (2 ^ 31), ⟨0, 2 ^ 31⟩, 1⟩ ∧
    wrapI32 ((2 ^ 31 : Nat) : Int) = -(2 ^ 31) := by
  refine ⟨?_, ?_, ?_⟩ <;> decide

/-- Each adapter operation leaves uio_resid no larger, as long as the
primitive itself never increases it. -/
theorem stepOp_resid_mono (primR primW : Prim) (hR : PrimMono primR)
    (hW : PrimMono primW) (u v : Uio) (op : AdapterOp)
    (h : stepOp primR primW u op = some v) :
    v.uio_resid ≤ u.uio_resid := by
  cases op with
  | read n =>
    simp only [stepOp, Option.some_inj] at h
    subst h
    rcases read_cases primR n u with ⟨msg, heq⟩ | ⟨_, _, _, heq⟩
    · rw [heq]
    · rw [heq]
      unfold readFinish
      split_ifs
      · exact hR _ u
      · exact hR _ u
      · exact hR _ u
  | write n =>
    simp only [stepOp] at h
    cases hx : UioWriter.write primW n u with
    | none =>
      rw [hx] at h
      simp at h
    | some out =>
      rw [hx] at h
      simp at h
      subst h
      unfold UioWriter.write at hx
      by_cases hA : writeAmount n u = 0
      · rw [if_pos hA, Option.some_inj] at hx
        subst hx
        exact le_refl _
      · rw [if_neg hA] at hx
        by_cases hB : n < wrapU64 u.uio_offset
        · rw [if_pos hB] at hx
          exact Option.noConfusion hx
        · rw [if_neg hB, Option.some_inj] at hx
          subst hx
          unfold writeFinish
          split_ifs
          · exact hW _ u
          · exact hW _ u
  | flush =>
    simp only [stepOp, Option.some_inj] at h
    subst h
    exact le_refl _
  | residual =>
    simp only [stepOp, Option.some_inj] at h
    subst h
    exact le_refl _

/-- Claim C8: along every sequence of adapter operations, uio_resid never
increases, assuming the external primitive only ever decrements it. -/
theorem uio_resid_monotone (primR primW : Prim) (hR : PrimMono primR)
    (hW : PrimMono primW) :
    ∀ (ops : List AdapterOp) (u v : Uio),
      runOps primR primW u ops = some v → v.uio_resid ≤ u.uio_resid := by
  intro ops
  induction ops with
  | nil =>
    intro u v h
    simp only [runOps, Option.some_inj] at h
    subst h
    exact le_refl _
  | cons op ops ih =>
    intro u v h
    rw [runOps] at h
    cases hs : stepOp primR primW u op with
    | none =>
      rw [hs] at h
      exact Option.noConfusion h
    | some w =>
      rw [hs] at h
      exact le_trans (ih w v h) (stepOp_resid_mono primR primW hR hW u w op hs)

set_option maxRecDepth 8192 in
/-- Witness for C8 on a concrete four-operation sequence with the stalling
primitive. -/
theorem uio_resid_monotone_witness :
    runOps primStall primStall ⟨0, 5⟩
      [AdapterOp.read 4, AdapterOp.write 4, AdapterOp.flush,
        AdapterOp.residual] = some ⟨0, 5⟩ ∧
    ((⟨0, 5⟩ : Uio).uio_resid ≤ (⟨0, 5⟩ : Uio).uio_resid) :=
  ⟨by decide, uio_resid_monotone primStall primStall primStall_primMono
    primStall_primMono
    [AdapterOp.read 4, AdapterOp.write 4, AdapterOp.flush, AdapterOp.residual]
    ⟨0, 5⟩ ⟨0, 5⟩ (by decide)⟩
